import Mathlib

/-!
Verification development for the ChestFormAPI Endstone plugin
(src/chest_form_api_endstone/chest_form.py).

The Python module is shallowly embedded: mutable objects become explicit
state passing, Python dicts become association lists with insert-or-replace
semantics, outbound packet sends and scheduler calls become explicit effect
lists, and host-runtime collaborators (the world block query, the packet
transport, the scheduler) become function-valued parameters of the player
model.  Every definition follows the source line by line; spec-side
abbreviations used only to state theorems are marked as such.
-/

namespace ChestFormAPI

/-! ### Dictionary model

Python dict semantics over association lists: lookup finds the unique
binding, assignment replaces an existing binding in place or appends a new
one at the end, `del` removes the binding. -/

def dictGet {β : Type} : List (Nat × β) → Nat → Option β
  | [], _ => none
  | (k, v) :: rest, key => if key = k then some v else dictGet rest key

def dictSet {β : Type} : List (Nat × β) → Nat → β → List (Nat × β)
  | [], key, v => [(key, v)]
  | (k, v') :: rest, key, v =>
    if key = k then (key, v) :: rest else (k, v') :: dictSet rest key v

def dictDel {β : Type} (d : List (Nat × β)) (key : Nat) : List (Nat × β) :=
  d.filter (fun e => e.1 ≠ key)

def dictContains {β : Type} (d : List (Nat × β)) (key : Nat) : Bool :=
  (dictGet d key).isSome

/-- String-keyed lookup for compound-tag contents. -/
def sdictGet {β : Type} : List (String × β) → String → Option β
  | [], _ => none
  | (k, v) :: rest, key => if key = k then some v else sdictGet rest key

def sdictSet {β : Type} : List (String × β) → String → β → List (String × β)
  | [], key, v => [(key, v)]
  | (k, v') :: rest, key, v =>
    if key = k then (key, v) :: rest else (k, v') :: sdictSet rest key v

/-! ### NBT model (rapidnbt CompoundTag / ByteTag / ShortTag) -/

/-- Structured-tag values as used by the module: byte and short scalars,
ints, strings, booleans, list tags and compound tags.  Compound tags are
ordered key-value sequences, mirroring dict insertion order. -/
inductive NBT where
  | byte : Int → NBT
  | short : Int → NBT
  | int : Int → NBT
  | string : String → NBT
  | bool : Bool → NBT
  | list : List NBT → NBT
  | compound : List (String × NBT) → NBT

/-- Fields of a compound tag; non-compound values have no fields. -/
def NBT.fields : NBT → List (String × NBT)
  | .compound fs => fs
  | _ => []

/-- Lookup of a key in a compound tag. -/
def compoundGet (t : NBT) (k : String) : Option NBT :=
  sdictGet t.fields k

/-- Assignment of a key in a compound tag (replace or append, as a dict). -/
def compoundSet (t : NBT) (k : String) (v : NBT) : NBT :=
  .compound (sdictSet t.fields k v)

/-- Auto-vivifying nested assignment, as in the source line
tag["display"]["Name"] = value: accessing a missing key of a rapidnbt
compound creates an empty sub-compound. -/
def compoundSetIn (t : NBT) (outer inner : String) (v : NBT) : NBT :=
  let sub := (compoundGet t outer).getD (.compound [])
  compoundSet t outer (compoundSet sub inner v)

/-- The keys of a compound tag. -/
def compoundKeys (t : NBT) : List String :=
  t.fields.map Prod.fst

/-- Whether a compound tag has a given key. -/
def compoundHasKey (t : NBT) (k : String) : Bool :=
  (compoundGet t k).isSome

/-- CompoundTag.empty from rapidnbt: no fields. -/
def tagEmpty (t : NBT) : Bool :=
  t.fields.isEmpty

/-! ### Item model (endstone ItemStack / ItemMeta, observable surface)

The endstone item/metadata object model is an external collaborator; the
module only reads the stack amount, the aux data value, the item type id,
and the meta display name, lore and enchantment map.  Those observations
are the fields of this model.  The raw extra structured tag assigned via
the ItemStack nbt property is carried as an extra field so that theorems
can speak about it; the serializer in this module never reads it. -/

structure ItemMeta where
  display_name : Option String
  lore : Option (List String)
  enchants : List (String × Int)

structure ItemStack where
  type_id : String
  amount : Int
  data : Int
  meta : ItemMeta
  extra_nbt : Option (List (String × NBT))

/-! ### ENCHANTMENTS_MAP — the enchantment code table -/

def ENCHANTMENTS_MAP : List (String × Int) :=
  [("protection", 0),
   ("fire_protection", 1),
   ("feather_falling", 2),
   ("blast_protection", 3),
   ("projectile_protection", 4),
   ("thorns", 5),
   ("respiration", 6),
   ("depth_strider", 7),
   ("aqua_affinity", 8),
   ("sharpness", 9),
   ("smite", 10),
   ("bane_of_arthropods", 11),
   ("knockback", 12),
   ("fire_aspect", 13),
   ("looting", 14),
   ("efficiency", 15),
   ("silk_touch", 16),
   ("unbreaking", 17),
   ("fortune", 18),
   ("power", 19),
   ("punch", 20),
   ("flame", 21),
   ("infinity", 22),
   ("luck_of_the_sea", 23),
   ("lure", 24),
   ("frost_walker", 25),
   ("mending", 26),
   ("curse_of_binding", 27),
   ("curse_of_vanishing", 28),
   ("impaling", 29),
   ("riptide", 30),
   ("loyalty", 31),
   ("channeling", 32),
   ("multishot", 33),
   ("piercing", 34),
   ("quick_charge", 35),
   ("soul_speed", 36),
   ("swift_sneak", 37),
   ("wind_burst", 38),
   ("density", 39),
   ("breach", 40),
   ("lunge", 41)]

/-- Lookup in the enchantment code table (name in ENCHANTMENTS_MAP). -/
def enchLookup (name : String) : Option Int :=
  sdictGet ENCHANTMENTS_MAP name

/-! ### ChestForm state -/

/-- The ChestForm object: title, chest size flag, the per-slot encoded
compound tags, and the per-slot click callbacks.  Callbacks themselves are
opaque host-side closures; they are abstracted as numeric identities so
that registration and lookup are observable. -/
structure ChestForm where
  title : String
  large_chest : Bool
  ui_items : List (Nat × NBT)
  call_backs : List (Nat × Nat)

/-- The ench list built inside set_form_slot: one compound per configured
enchantment whose name is in ENCHANTMENTS_MAP, in configuration order;
unknown names are skipped. -/
def enchEntries : List (String × Int) → List NBT
  | [] => []
  | (name, level) :: rest =>
    match enchLookup name with
    | some ench =>
      NBT.compound [("id", .short ench), ("lvl", .short level)] :: enchEntries rest
    | none => enchEntries rest

/-- The inner tag sub-compound of set_form_slot: display name, lore and
ench list, each added only when the item meta has it. -/
def metaTag (meta : ItemMeta) : NBT :=
  let tag : NBT := .compound []
  let tag := match meta.display_name with
    | some dn => compoundSetIn tag "display" "Name" (.string dn)
    | none => tag
  let tag := match meta.lore with
    | some lr => compoundSetIn tag "display" "Lore" (.list (lr.map .string))
    | none => tag
  match meta.enchants with
  | [] => tag
  | _ => compoundSet tag "ench" (.list (enchEntries meta.enchants))

/-- The item_nbt computation of set_form_slot: an empty compound for a None
item, otherwise the Count/Damage/Name/WasPickedUp/Slot compound with the
raw index re-based by 27 for the second chest half, plus the tag
sub-compound when it is non-empty. -/
def encodeSlot (item : Option ItemStack) (index : Nat) : NBT :=
  match item with
  | none => .compound []
  | some it =>
    let slot : Nat := if 27 ≤ index then index - 27 else index
    let item_nbt : NBT := .compound
      [("Count", .byte it.amount),
       ("Damage", .short it.data),
       ("Name", .string it.type_id),
       ("WasPickedUp", .bool false),
       ("Slot", .byte (slot : Int))]
    let tag := metaTag it.meta
    if tagEmpty tag then item_nbt else compoundSet item_nbt "tag" tag

/-- set_form_slot: store the encoded compound at the index and, only when a
callback is given, register it at the index. -/
def set_form_slot (form : ChestForm) (index : Nat) (item : Option ItemStack)
    (callback : Option Nat) : ChestForm :=
  { form with
    ui_items := dictSet form.ui_items index (encodeSlot item index)
    call_backs :=
      match callback with
      | some cb => dictSet form.call_backs index cb
      | none => form.call_backs }

/-- ChestForm.set_slot: build the ItemStack from the arguments (the meta
fields set one by one, the enchantments added in configuration order), set
the raw extra tag when given, and delegate to set_form_slot.  The endstone
ItemStack constructor and meta setters are the external item model. -/
def ChestForm.set_slot (form : ChestForm) (slot : Nat) (item_type : String)
    (callback : Option Nat) (item_amount : Int) (item_data : Int)
    (display_name : Option String) (lore : Option (List String))
    (enchants : Option (List (String × Int)))
    (nbt : Option (List (String × NBT))) : ChestForm :=
  let meta : ItemMeta :=
    { display_name := display_name
      lore := lore
      enchants := match enchants with | some es => es | none => [] }
  let item : ItemStack :=
    { type_id := item_type, amount := item_amount, data := item_data
      meta := meta, extra_nbt := nbt }
  set_form_slot form slot (some item) callback

/-- ChestForm construction: fresh dicts, then set_form_slot on every index
in range 54 with a None item and no callback.  The one-time packet listener
registration on the plugin is host-runtime wiring outside this model. -/
def mkChestForm (title : String) (large_chest : Bool) : ChestForm :=
  (List.range 54).foldl
    (fun f index => set_form_slot f index none none)
    { title := title, large_chest := large_chest, ui_items := [], call_backs := [] }

/-- ChestForm.fill_slots: set_slot on every index in range 54 with the same
item arguments and no callback. -/
def ChestForm.fill_slots (form : ChestForm) (item_type : String)
    (item_amount : Int) (item_data : Int) (display_name : Option String)
    (lore : Option (List String)) (enchants : Option (List (String × Int)))
    (nbt : Option (List (String × NBT))) : ChestForm :=
  (List.range 54).foldl
    (fun f index =>
      f.set_slot index item_type none item_amount item_data display_name lore
        enchants nbt)
    form

/-- Layout size of a form as the spec counts it: 54 slots for a large
chest, 27 for a single chest.  Spec-side abbreviation used in statements;
the source always reserves 54 slot entries. -/
def layoutSize (form : ChestForm) : Nat :=
  if form.large_chest then 54 else 27

/-! ### Player, packets, presentation encoder -/

/-- Dimension.Type of the endstone level API, the three dimension kinds
tested by send_to. -/
inductive DimType where
  | overworld
  | nether
  | the_end
deriving DecidableEq

/-- The observable surface of an endstone Player used by this module: the
identity, the block position, the dimension kind, and the world block
query dimension.get_block_at(x, y, z).data.runtime_id. -/
structure Player where
  unique_id : Nat
  block_x : Int
  block_y : Int
  block_z : Int
  dim : DimType
  world_block_runtime_id : Int → Int → Int → Int

/-- Outbound packets the module constructs, with the constructor arguments
of the corresponding bedrock_protocol packet classes. -/
inductive Packet where
  | updateBlock (pos : Int × Int × Int) (block_runtime_id : Int)
      (flags : Int) (layer : Int)
  | blockActorData (pos : Int × Int × Int) (block_nbt : NBT)
  | containerOpen (container_id : Int) (container_type : Int)
      (pos : Int × Int × Int) (target_actor : Int)
  | containerClose (container_id : Int) (container_type : Int)
      (server_initiated : Bool)

/-- Hash runtime id for the vanilla chest block. -/
def chestBlockRuntimeId : Int := 741882976

/-- update_chest_block: one UpdateBlock packet at the anchor (two, one
block over on the x axis, for a large chest).  When is_close is set the
real block runtime id reported by the world replaces the chest id, queried
separately per position. -/
def update_chest_block (form : ChestForm) (player : Player)
    (x y z : Int) (is_close : Bool) : List Packet :=
  let block_runtime_id :=
    if is_close then player.world_block_runtime_id x y z else chestBlockRuntimeId
  let first := Packet.updateBlock (x, y, z) block_runtime_id 3 0
  if form.large_chest then
    let block_runtime_id2 :=
      if is_close then player.world_block_runtime_id (x + 1) y z
      else block_runtime_id
    [first, Packet.updateBlock (x + 1, y, z) block_runtime_id2 3 0]
  else
    [first]

/-- The stored slot tag at an index; every index in range 54 is present
after construction, so the default empty compound is never reached on
forms built through mkChestForm. -/
def formSlotTag (form : ChestForm) (index : Nat) : NBT :=
  (dictGet form.ui_items index).getD (.compound [])

/-- The block_nbt compound built by update_chest_block_actor for the first
block, Items filled from slots 0 to 26. -/
def chestBlockNbt (form : ChestForm) (x y z : Int) : NBT :=
  .compound
    [("CustomName", .string form.title),
     ("Findable", .bool false),
     ("id", .string "Chest"),
     ("isMovable", .bool true),
     ("x", .int x),
     ("y", .int y),
     ("z", .int z),
     ("pairx", .int (x + 1)),
     ("pairz", .int z),
     ("pairlead", .bool true),
     ("Items", .list ((List.range 27).map (fun i => formSlotTag form i)))]

/-- update_chest_block_actor: one BlockActorData packet with the first
block compound; for a large chest the same compound is updated in place
(x, pairx, pairlead, Items refilled from slots 27 to 53) and sent a second
time for the paired block. -/
def update_chest_block_actor (form : ChestForm) (x y z : Int) : List Packet :=
  let block_nbt := chestBlockNbt form x y z
  let first := Packet.blockActorData (x, y, z) block_nbt
  if form.large_chest then
    let block_nbt2 :=
      compoundSet
        (compoundSet
          (compoundSet
            (compoundSet block_nbt "x" (.int (x + 1)))
            "pairx" (.int x))
          "pairlead" (.bool false))
        "Items" (.list ((List.range 27).map (fun i => formSlotTag form (i + 27))))
    [first, Packet.blockActorData (x + 1, y, z) block_nbt2]
  else
    [first]

/-- FormData: the registry entry value, the form presented to the player
and the anchor position chosen at presentation time. -/
structure FormData where
  form : ChestForm
  x : Int
  y : Int
  z : Int

/-- The outcome of ChestForm.send_to: the packets sent at once, the
ContainerOpen packet sent by the task scheduled 10 ticks later, and the
registry entry that task installs. -/
structure SendResult where
  packets : List Packet
  delayed : Packet
  delay : Nat
  registry_update : Nat × FormData

/-- ChestForm.send_to: anchor at the player block position raised by 4, or
lowered by 3 when the raised height exceeds the per-dimension bound tested
by the source condition; then update_chest_block (not closing) and
update_chest_block_actor at once, and a delayed task that sends
ContainerOpen with reserved container id 114 and registers the form. -/
def ChestForm.send_to (form : ChestForm) (player : Player) : SendResult :=
  let x := player.block_x
  let y0 := player.block_y + 4
  let y :=
    if (player.dim = DimType.overworld ∧ y0 > 319)
        ∨ (player.dim = DimType.nether ∧ y0 > 127)
        ∨ (player.dim = DimType.the_end ∧ y0 > 255)
    then player.block_y - 3
    else y0
  let z := player.block_z
  { packets := update_chest_block form player x y z false
      ++ update_chest_block_actor form x y z
    delayed := Packet.containerOpen 114 0 (x, y, z) (-1)
    delay := 10
    registry_update := (player.unique_id, ⟨form, x, y, z⟩) }

/-! ### Interaction dispatcher -/

/-- ItemStackRequestActionType values the handler distinguishes: Take and
everything else (the enum has further members, none of which the handler
reads). -/
inductive ActionType where
  | Take
  | Other
deriving DecidableEq

/-- One request action as read by the handler: its kind, the net id of its
source container origin, and the source slot index. -/
structure RequestAction where
  action_type : ActionType
  source_net_id : Int
  source_slot : Nat
deriving DecidableEq

/-- A deserialized ItemStackRequestPacket as read by the handler:
packet.request.request_data is a list of requests, each with its
request_actions list. -/
structure ItemStackRequest where
  request_data : List (List RequestAction)

/-- The observable side effects of a handler run: a packet sent directly,
an update_chest_block call (whose own packet sends are given by
update_chest_block), or a callback invocation scheduled through
run_delay_task with the given slot index and tick delay. -/
inductive Effect where
  | send (p : Packet)
  | revert (x y z : Int) (restore_real_block : Bool)
  | schedule (index : Nat) (delay : Nat)

/-- The match condition tested on each action: kind Take, source net id 0,
and the source slot has a registered callback. -/
def isMatch (cbs : List (Nat × Nat)) (a : RequestAction) : Bool :=
  a.action_type = ActionType.Take ∧ a.source_net_id = 0
    ∧ dictContains cbs a.source_slot

/-- Scan of one request action list: the slot of the first matching
action, none when no action matches. -/
def findMatchInActions (cbs : List (Nat × Nat)) :
    List RequestAction → Option Nat
  | [] => none
  | a :: rest =>
    if isMatch cbs a then some a.source_slot else findMatchInActions cbs rest

/-- Scan of the request list in order, each request scanned in action
order, stopping at the first match (the early return in the source). -/
def findMatchInRequests (cbs : List (Nat × Nat)) :
    List (List RequestAction) → Option Nat
  | [] => none
  | req :: rest =>
    match findMatchInActions cbs req with
    | some index => some index
    | none => findMatchInRequests cbs rest

/-- The process-wide runtime_forms registry of ChestFormCallbackHandler,
keyed by player unique id (UUIDs abstracted as naturals). -/
def Registry := List (Nat × FormData)

/-- ChestFormCallbackHandler.add_runtime_form: dict assignment of the
entry under the player unique id. -/
def add_runtime_form (reg : Registry) (uuid : Nat) (data : FormData) : Registry :=
  dictSet reg uuid data

/-- ChestFormCallbackHandler.handle_chest_callback: when the player has a
registry entry and some action matches (first match wins), send
ContainerClose with the reserved id 114 marked server initiated, call
update_chest_block with is_close set, delete the registry entry and
schedule the callback invocation 2 ticks later; otherwise do nothing. -/
def handle_chest_callback (reg : Registry) (player : Player)
    (packet : ItemStackRequest) : List Effect × Registry :=
  match dictGet reg player.unique_id with
  | none => ([], reg)
  | some data =>
    match findMatchInRequests data.form.call_backs packet.request_data with
    | none => ([], reg)
    | some index =>
      ([.send (.containerClose 114 0 true),
        .revert data.x data.y data.z true,
        .schedule index 2],
       dictDel reg player.unique_id)

/-- ChestFormCallbackHandler.handle_chest_close: when the inbound close
packet carries container id 114 and the player has a registry entry, call
update_chest_block with is_close set and delete the entry. -/
def handle_chest_close (reg : Registry) (player : Player)
    (container_id : Int) : List Effect × Registry :=
  if container_id = 114 then
    match dictGet reg player.unique_id with
    | none => ([], reg)
    | some data =>
      ([.revert data.x data.y data.z true], dictDel reg player.unique_id)
  else
    ([], reg)

/-! ### Registry evolution -/

/-- One registry-affecting event: a presentation completing (the delayed
open task calling add_runtime_form), an inbound ItemStackRequest packet,
or an inbound ContainerClose packet. -/
inductive RegOp where
  | present (uuid : Nat) (data : FormData)
  | itemRequest (player : Player) (packet : ItemStackRequest)
  | close (player : Player) (container_id : Int)

/-- Registry transition for one event. -/
def stepOp (reg : Registry) : RegOp → Registry
  | .present uuid data => add_runtime_form reg uuid data
  | .itemRequest player packet => (handle_chest_callback reg player packet).2
  | .close player container_id => (handle_chest_close reg player container_id).2

/-- The registry after a sequence of events, starting from the empty
runtime_forms dict the handler class is created with. -/
def runOps (ops : List RegOp) : Registry :=
  ops.foldl stepOp []

/-- The number of registry entries held under one player identity. -/
def countKey (reg : Registry) (uuid : Nat) : Nat :=
  (reg.filter (fun e => e.1 = uuid)).length

/-- Build ceiling per dimension kind as the spec names it (spec-side
abbreviation; the source tests the three bounds in one condition). -/
def buildCeiling : DimType → Int
  | .overworld => 319
  | .nether => 127
  | .the_end => 255

/-! ### Concrete fixtures used by witnesses and counterexamples -/

/-- A plain configured item: five diamonds, no meta, no extra tag. -/
def sampleItem : ItemStack :=
  { type_id := "minecraft:diamond", amount := 5, data := 0
    meta := { display_name := none, lore := none, enchants := [] }
    extra_nbt := none }

/-- An item carrying a sharpness 3 enchantment. -/
def sharpnessItem : ItemStack :=
  { sampleItem with
    meta := { display_name := none, lore := none, enchants := [("sharpness", 3)] } }

/-- An item carrying one enchantment whose name is not in the code table. -/
def unknownEnchItem : ItemStack :=
  { sampleItem with
    meta := { display_name := none, lore := none, enchants := [("not_in_table", 2)] } }

/-- A sample player in the overworld at block position (10, 64, -5). -/
def samplePlayer : Player :=
  { unique_id := 1, block_x := 10, block_y := 64, block_z := -5
    dim := .overworld, world_block_runtime_id := fun _ _ _ => 0 }

/-- A single-chest form. -/
def smallForm : ChestForm := mkChestForm "SmallChest" false

/-- A large-chest form fresh from construction. -/
def largeForm : ChestForm := mkChestForm "ChestUI" true

/-- A large form with a raw extra tag payload holding a field named Custom
configured at slot 3. -/
def payloadForm : ChestForm :=
  largeForm.set_slot 3 "minecraft:stone" none 1 0 none none none
    (some [("Custom", .byte 1)])

/-- A large form with a click callback (identity 7) registered at slot 10. -/
def callbackForm : ChestForm :=
  largeForm.set_slot 10 "minecraft:diamond" (some 7) 5 0 none none none none

/-- A registry entry presenting callbackForm at anchor (10, 68, -5). -/
def sampleData : FormData := ⟨callbackForm, 10, 68, -5⟩

/-- A registry holding exactly the sample entry for player 1. -/
def sampleRegistryState : Registry := [(1, sampleData)]

/-- A take action from the UI container origin on slot 10. -/
def takeActionSlot10 : RequestAction :=
  { action_type := .Take, source_net_id := 0, source_slot := 10 }

/-- A take action from the UI container origin on slot 3, a slot with no
callback in callbackForm. -/
def takeActionSlot3 : RequestAction :=
  { action_type := .Take, source_net_id := 0, source_slot := 3 }

/-- A request packet holding the same matching action twice. -/
def samplePacket : ItemStackRequest :=
  { request_data := [[takeActionSlot10, takeActionSlot10]] }

/-- A request packet whose only take action targets a callback-free slot. -/
def noCallbackPacket : ItemStackRequest :=
  { request_data := [[takeActionSlot3]] }

/-- A form that registered callback 7 at slot 0 and was then reconfigured
at slot 0 through set_slot with no callback. -/
def resetSlotForm : ChestForm :=
  (largeForm.set_slot 0 "minecraft:stone" (some 7) 1 0 none none none
    none).set_slot 0 "minecraft:stone" none 1 0 none none none none

/-- A large form where set_slot was called at the out-of-range index 54
with callback 9. -/
def outOfRangeForm : ChestForm :=
  largeForm.set_slot 54 "minecraft:stone" (some 9) 1 0 none none none none

/-- The anchor chosen by a presentation, as recorded in the registry entry
the delayed open task installs. -/
def sendAnchor (form : ChestForm) (player : Player) : FormData :=
  (form.send_to player).registry_update.2

/-! ### Dictionary lemmas -/

theorem dictGet_dictSet_self {β : Type} (d : List (Nat × β)) (k : Nat) (v : β) :
    dictGet (dictSet d k v) k = some v := by
  induction d with
  | nil => simp [dictSet, dictGet]
  | cons e rest ih =>
    obtain ⟨k1, v1⟩ := e
    by_cases h : k = k1 <;> simp [dictSet, dictGet, h, ih]

theorem dictGet_dictSet_ne {β : Type} (d : List (Nat × β)) (k k' : Nat) (v : β)
    (h : k' ≠ k) : dictGet (dictSet d k v) k' = dictGet d k' := by
  induction d with
  | nil => simp [dictSet, dictGet, h]
  | cons e rest ih =>
    obtain ⟨k1, v1⟩ := e
    by_cases h1 : k = k1
    · subst h1
      simp [dictSet, dictGet, h]
    · by_cases h2 : k' = k1 <;> simp [dictSet, dictGet, h1, h2, ih]

theorem dictGet_dictDel_self {β : Type} (d : List (Nat × β)) (k : Nat) :
    dictGet (dictDel d k) k = none := by
  induction d with
  | nil => simp [dictDel, dictGet]
  | cons e rest ih =>
    obtain ⟨k1, v1⟩ := e
    by_cases h : k1 = k
    · simpa [dictDel, dictGet, h] using ih
    · simpa [dictDel, dictGet, h, Ne.symm h] using ih

theorem sdictGet_sdictSet_self {β : Type} (d : List (String × β)) (k : String)
    (v : β) : sdictGet (sdictSet d k v) k = some v := by
  induction d with
  | nil => simp [sdictSet, sdictGet]
  | cons e rest ih =>
    obtain ⟨k1, v1⟩ := e
    by_cases h : k = k1 <;> simp [sdictSet, sdictGet, h, ih]

theorem sdictGet_sdictSet_ne {β : Type} (d : List (String × β)) (k k' : String)
    (v : β) (h : k' ≠ k) : sdictGet (sdictSet d k v) k' = sdictGet d k' := by
  induction d with
  | nil => simp [sdictSet, sdictGet, h]
  | cons e rest ih =>
    obtain ⟨k1, v1⟩ := e
    by_cases h1 : k = k1
    · subst h1
      simp [sdictSet, sdictGet, h]
    · by_cases h2 : k' = k1 <;> simp [sdictSet, sdictGet, h1, h2, ih]

theorem compoundGet_compoundSet_self (t : NBT) (k : String) (v : NBT) :
    compoundGet (compoundSet t k v) k = some v := by
  simp [compoundGet, compoundSet, NBT.fields, sdictGet_sdictSet_self]

theorem compoundGet_compoundSet_ne (t : NBT) (k k' : String) (v : NBT)
    (h : k' ≠ k) : compoundGet (compoundSet t k v) k' = compoundGet t k' := by
  simp [compoundGet, compoundSet, NBT.fields, sdictGet_sdictSet_ne _ _ _ _ h]

theorem mem_keys_sdictSet {β : Type} (d : List (String × β)) (k k' : String)
    (v : β) (h : k' ∈ (sdictSet d k v).map Prod.fst) :
    k' = k ∨ k' ∈ d.map Prod.fst := by
  induction d with
  | nil => simpa [sdictSet] using h
  | cons e rest ih =>
    obtain ⟨k1, v1⟩ := e
    simp only [sdictSet] at h
    by_cases h1 : k = k1
    · rw [if_pos h1] at h
      simp only [List.map_cons, List.mem_cons] at h ⊢
      subst h1
      rcases h with h | h
      · exact Or.inl h
      · exact Or.inr (Or.inr h)
    · rw [if_neg h1] at h
      simp only [List.map_cons, List.mem_cons] at h ⊢
      rcases h with h | h
      · exact Or.inr (Or.inl h)
      · rcases ih h with h2 | h2
        · exact Or.inl h2
        · exact Or.inr (Or.inr h2)

theorem mem_keys_compoundSet (t : NBT) (k k' : String) (v : NBT)
    (h : k' ∈ compoundKeys (compoundSet t k v)) :
    k' = k ∨ k' ∈ compoundKeys t := by
  exact mem_keys_sdictSet t.fields k k' v h

theorem mem_keys_compoundSetIn (t : NBT) (outer inner k' : String) (v : NBT)
    (h : k' ∈ compoundKeys (compoundSetIn t outer inner v)) :
    k' = outer ∨ k' ∈ compoundKeys t := by
  exact mem_keys_compoundSet t outer k' _ h

/-! ### Registry counting lemmas -/

theorem countKey_nil (u : Nat) : countKey ([] : Registry) u = 0 := rfl

theorem countKey_cons (k1 : Nat) (v1 : FormData) (rest : Registry) (u : Nat) :
    countKey ((k1, v1) :: rest) u =
      (if k1 = u then 1 else 0) + countKey rest u := by
  by_cases h : k1 = u <;> simp [countKey, List.filter_cons, h] <;> omega

theorem countKey_dictSet_ne (d : Registry) (k u : Nat) (v : FormData)
    (h : u ≠ k) : countKey (dictSet d k v) u = countKey d u := by
  induction d with
  | nil =>
    show countKey [(k, v)] u = countKey [] u
    rw [countKey_cons, if_neg (fun hh => h hh.symm)]
    omega
  | cons e rest ih =>
    obtain ⟨k1, v1⟩ := e
    simp only [dictSet]
    by_cases h1 : k = k1
    · rw [if_pos h1, countKey_cons, countKey_cons, h1]
    · rw [if_neg h1, countKey_cons, countKey_cons, ih]

theorem countKey_dictSet_self (d : Registry) (k : Nat) (v : FormData)
    (h : countKey d k ≤ 1) : countKey (dictSet d k v) k = 1 := by
  induction d with
  | nil =>
    show countKey [(k, v)] k = 1
    rw [countKey_cons, if_pos rfl, countKey_nil]
  | cons e rest ih =>
    obtain ⟨k1, v1⟩ := e
    rw [countKey_cons] at h
    simp only [dictSet]
    by_cases h1 : k = k1
    · rw [if_pos h1.symm] at h
      rw [if_pos h1, countKey_cons, if_pos rfl]
      omega
    · rw [if_neg (fun hh => h1 hh.symm)] at h
      rw [if_neg h1, countKey_cons, if_neg (fun hh => h1 hh.symm),
        ih (by omega)]

theorem countKey_dictDel_le (d : Registry) (k u : Nat) :
    countKey (dictDel d k) u ≤ countKey d u := by
  induction d with
  | nil => exact le_refl 0
  | cons e rest ih =>
    obtain ⟨k1, v1⟩ := e
    by_cases h1 : k1 = k
    · have hdel : dictDel ((k1, v1) :: rest) k = dictDel rest k := by
        simp [dictDel, List.filter_cons, h1]
      rw [hdel, countKey_cons]
      omega
    · have hdel : dictDel ((k1, v1) :: rest) k = (k1, v1) :: dictDel rest k := by
        simp [dictDel, List.filter_cons, h1]
      rw [hdel, countKey_cons, countKey_cons]
      omega

theorem countKey_stepOp (reg : Registry) (op : RegOp)
    (hreg : ∀ u, countKey reg u ≤ 1) (u : Nat) :
    countKey (stepOp reg op) u ≤ 1 := by
  cases op with
  | present uuid data =>
    show countKey (dictSet reg uuid data) u ≤ 1
    by_cases h : u = uuid
    · subst h
      rw [countKey_dictSet_self reg u data (hreg u)]
    · rw [countKey_dictSet_ne reg uuid u data h]
      exact hreg u
  | itemRequest player packet =>
    show countKey (handle_chest_callback reg player packet).2 u ≤ 1
    unfold handle_chest_callback
    cases dictGet reg player.unique_id with
    | none => exact hreg u
    | some data =>
      dsimp only
      cases findMatchInRequests data.form.call_backs packet.request_data with
      | none => exact hreg u
      | some index =>
        exact le_trans (countKey_dictDel_le reg player.unique_id u) (hreg u)
  | close player container_id =>
    show countKey (handle_chest_close reg player container_id).2 u ≤ 1
    unfold handle_chest_close
    by_cases h : container_id = 114
    · simp only [h, if_pos rfl]
      cases dictGet reg player.unique_id with
      | none => exact hreg u
      | some data =>
        dsimp only
        exact le_trans (countKey_dictDel_le reg player.unique_id u) (hreg u)
    · simp only [if_neg h]
      exact hreg u

theorem countKey_foldl (ops : List RegOp) (reg : Registry)
    (hreg : ∀ u, countKey reg u ≤ 1) (u : Nat) :
    countKey (ops.foldl stepOp reg) u ≤ 1 := by
  induction ops generalizing reg with
  | nil => exact hreg u
  | cons op rest ih =>
    exact ih (stepOp reg op) (countKey_stepOp reg op hreg)

/-! ### Dispatcher scan lemmas -/

theorem findMatchInActions_eq_find (cbs : List (Nat × Nat))
    (l : List RequestAction) :
    findMatchInActions cbs l =
      (l.find? (isMatch cbs)).map (fun a => a.source_slot) := by
  induction l with
  | nil => rfl
  | cons a rest ih =>
    by_cases h : isMatch cbs a <;>
      simp [findMatchInActions, List.find?_cons, h, ih]

theorem findMatchInRequests_eq_find (cbs : List (Nat × Nat))
    (reqs : List (List RequestAction)) :
    findMatchInRequests cbs reqs =
      (reqs.flatten.find? (isMatch cbs)).map (fun a => a.source_slot) := by
  induction reqs with
  | nil => rfl
  | cons req rest ih =>
    simp only [findMatchInRequests, findMatchInActions_eq_find, ih,
      List.flatten_cons, List.find?_append]
    cases req.find? (isMatch cbs) <;> simp [Option.or]

/-! ### Slot-encoding lemmas -/

theorem keys_empty_compound (k : String) :
    k ∈ compoundKeys (NBT.compound []) → False := by
  simp [compoundKeys, NBT.fields]

theorem metaTag_keys (meta : ItemMeta) (k : String)
    (h : k ∈ compoundKeys (metaTag meta)) : k = "display" ∨ k = "ench" := by
  obtain ⟨dn, lr, es⟩ := meta
  cases dn <;> cases lr <;> cases es <;> dsimp only [metaTag] at h
  · exact absurd h (by simp [compoundKeys, NBT.fields])
  · rcases mem_keys_compoundSet _ _ _ _ h with rfl | h2
    · exact Or.inr rfl
    · exact absurd h2 (keys_empty_compound k)
  · rcases mem_keys_compoundSetIn _ _ _ _ _ h with rfl | h2
    · exact Or.inl rfl
    · exact absurd h2 (keys_empty_compound k)
  · rcases mem_keys_compoundSet _ _ _ _ h with rfl | h2
    · exact Or.inr rfl
    · rcases mem_keys_compoundSetIn _ _ _ _ _ h2 with rfl | h3
      · exact Or.inl rfl
      · exact absurd h3 (keys_empty_compound k)
  · rcases mem_keys_compoundSetIn _ _ _ _ _ h with rfl | h2
    · exact Or.inl rfl
    · exact absurd h2 (keys_empty_compound k)
  · rcases mem_keys_compoundSet _ _ _ _ h with rfl | h2
    · exact Or.inr rfl
    · rcases mem_keys_compoundSetIn _ _ _ _ _ h2 with rfl | h3
      · exact Or.inl rfl
      · exact absurd h3 (keys_empty_compound k)
  · rcases mem_keys_compoundSetIn _ _ _ _ _ h with rfl | h2
    · exact Or.inl rfl
    · rcases mem_keys_compoundSetIn _ _ _ _ _ h2 with rfl | h3
      · exact Or.inl rfl
      · exact absurd h3 (keys_empty_compound k)
  · rcases mem_keys_compoundSet _ _ _ _ h with rfl | h2
    · exact Or.inr rfl
    · rcases mem_keys_compoundSetIn _ _ _ _ _ h2 with rfl | h3
      · exact Or.inl rfl
      · rcases mem_keys_compoundSetIn _ _ _ _ _ h3 with rfl | h4
        · exact Or.inl rfl
        · exact absurd h4 (keys_empty_compound k)

/-- The base five-field compound of encodeSlot for a present item. -/
def encodeBase (it : ItemStack) (index : Nat) : NBT :=
  .compound
    [("Count", .byte it.amount),
     ("Damage", .short it.data),
     ("Name", .string it.type_id),
     ("WasPickedUp", .bool false),
     ("Slot", .byte ((if 27 ≤ index then index - 27 else index : Nat) : Int))]

theorem encodeSlot_eq (it : ItemStack) (index : Nat) :
    encodeSlot (some it) index =
      if tagEmpty (metaTag it.meta) then encodeBase it index
      else compoundSet (encodeBase it index) "tag" (metaTag it.meta) := rfl

theorem encodeSlot_get_of_ne_tag (it : ItemStack) (index : Nat) (k : String)
    (hk : k ≠ "tag") :
    compoundGet (encodeSlot (some it) index) k =
      compoundGet (encodeBase it index) k := by
  rw [encodeSlot_eq]
  by_cases htag : tagEmpty (metaTag it.meta)
  · rw [if_pos htag]
  · rw [if_neg htag, compoundGet_compoundSet_ne _ _ _ _ hk]

theorem encodeSlot_get_tag (it : ItemStack) (index : Nat) :
    compoundGet (encodeSlot (some it) index) "tag" =
      if tagEmpty (metaTag it.meta) then none else some (metaTag it.meta) := by
  rw [encodeSlot_eq]
  by_cases htag : tagEmpty (metaTag it.meta)
  · rw [if_pos htag, if_pos htag]
    rfl
  · rw [if_neg htag, if_neg htag, compoundGet_compoundSet_self]

theorem set_slot_eq (form : ChestForm) (slot : Nat) (item_type : String)
    (callback : Option Nat) (amount dat : Int) (dn : Option String)
    (lr : Option (List String)) (es : Option (List (String × Int)))
    (nbt : Option (List (String × NBT))) :
    form.set_slot slot item_type callback amount dat dn lr es nbt =
      set_form_slot form slot
        (some { type_id := item_type, amount := amount, data := dat
                meta := { display_name := dn, lore := lr
                          enchants := match es with
                            | some l => l
                            | none => [] }
                extra_nbt := nbt }) callback := rfl

theorem formSlotTag_set_form_slot_ne (form : ChestForm) (index j : Nat)
    (item : Option ItemStack) (cb : Option Nat) (h : j ≠ index) :
    formSlotTag (set_form_slot form index item cb) j = formSlotTag form j := by
  show (dictGet (dictSet form.ui_items index (encodeSlot item index)) j).getD _
      = _
  rw [dictGet_dictSet_ne _ _ _ _ h]
  rfl

theorem update_chest_block_actor_congr (f g : ChestForm) (x y z : Int)
    (hl : f.large_chest = g.large_chest) (ht : f.title = g.title)
    (hs : ∀ i, i < 27 → formSlotTag f i = formSlotTag g i)
    (hs2 : g.large_chest = true →
      ∀ i, i < 27 → formSlotTag f (i + 27) = formSlotTag g (i + 27)) :
    update_chest_block_actor f x y z = update_chest_block_actor g x y z := by
  have hm1 : (List.range 27).map (fun i => formSlotTag f i) =
      (List.range 27).map (fun i => formSlotTag g i) :=
    List.map_congr_left (fun j hj => hs j (List.mem_range.mp hj))
  simp only [update_chest_block_actor, chestBlockNbt, hl, ht, hm1]
  by_cases hlg : g.large_chest
  · have hm2 : (List.range 27).map (fun i => formSlotTag f (i + 27)) =
        (List.range 27).map (fun i => formSlotTag g (i + 27)) :=
      List.map_congr_left (fun j hj => hs2 hlg j (List.mem_range.mp hj))
    rw [if_pos hlg, if_pos hlg, hm2]
  · rw [if_neg hlg, if_neg hlg]

/-! ### Claim theorems -/

/-- C2: for every slot content and raw slot index below 54, an empty slot
encodes to the empty compound, and a present item encodes to a compound
whose Count, Damage, Name, WasPickedUp and Slot fields carry the stack
count as a byte tag, the aux value as a short tag, the item type
identifier, false, and the raw index re-based modulo 27. -/
theorem C2_slot_encoding (it : ItemStack) (index : Nat) (h : index < 54) :
    encodeSlot none index = NBT.compound [] ∧
    compoundGet (encodeSlot (some it) index) "Count" =
      some (.byte it.amount) ∧
    compoundGet (encodeSlot (some it) index) "Damage" =
      some (.short it.data) ∧
    compoundGet (encodeSlot (some it) index) "Name" =
      some (.string it.type_id) ∧
    compoundGet (encodeSlot (some it) index) "WasPickedUp" =
      some (.bool false) ∧
    compoundGet (encodeSlot (some it) index) "Slot" =
      some (.byte ((index % 27 : Nat) : Int)) := by
  have hslot : (if 27 ≤ index then index - 27 else index) = index % 27 := by
    split <;> omega
  refine ⟨rfl, ?_, ?_, ?_, ?_, ?_⟩ <;>
    rw [encodeSlot_get_of_ne_tag _ _ _ (by decide)]
  · rfl
  · rfl
  · rfl
  · rfl
  · show compoundGet (encodeBase it index) "Slot" = _
    unfold encodeBase
    rw [hslot]
    rfl

/-- C2 witness: the encoding theorem instantiated at raw index 30 with the
sample item; 30 mod 27 is 3. -/
theorem C2_slot_encoding_witness :
    (30 < 54) ∧
    (encodeSlot none 30 = NBT.compound [] ∧
     compoundGet (encodeSlot (some sampleItem) 30) "Count" =
       some (.byte sampleItem.amount) ∧
     compoundGet (encodeSlot (some sampleItem) 30) "Damage" =
       some (.short sampleItem.data) ∧
     compoundGet (encodeSlot (some sampleItem) 30) "Name" =
       some (.string sampleItem.type_id) ∧
     compoundGet (encodeSlot (some sampleItem) 30) "WasPickedUp" =
       some (.bool false) ∧
     compoundGet (encodeSlot (some sampleItem) 30) "Slot" =
       some (.byte ((30 % 27 : Nat) : Int))) :=
  ⟨by decide, C2_slot_encoding sampleItem 30 (by decide)⟩

/-- C4 counterexample: callback 7 is registered at slot 0, the slot is then
reconfigured through set_slot with no callback, and the callback is still
registered, contrary to the claim that it is cleared. -/
theorem C4_counterexample :
    dictGet resetSlotForm.call_backs 0 = some 7 ∧
    dictGet resetSlotForm.call_backs 0 ≠ none := by
  refine ⟨by rfl, ?_⟩
  rw [(by rfl : dictGet resetSlotForm.call_backs 0 = some 7)]
  exact Option.some_ne_none 7

/-- C4 amended: set_slot with a callback registers it at the index, and
set_slot with no callback leaves the callback mapping unchanged, so a
previously registered callback at that index remains. -/
theorem C4_callback_registration (form : ChestForm) (index : Nat)
    (item_type : String) (cb : Nat) (amount dat : Int)
    (dn : Option String) (lr : Option (List String))
    (es : Option (List (String × Int))) (nbt : Option (List (String × NBT))) :
    dictGet (form.set_slot index item_type (some cb) amount dat dn lr es
        nbt).call_backs index = some cb ∧
    (form.set_slot index item_type none amount dat dn lr es
        nbt).call_backs = form.call_backs := by
  constructor
  · show dictGet (dictSet form.call_backs index cb) index = some cb
    exact dictGet_dictSet_self _ _ _
  · rfl

/-- C9: enchantment encoding emits an id and lvl entry only for names in
the code table and silently drops unknown names; a sharpness level 3 slot
carries the entry with id 9 and lvl 3, and a slot with an unknown name
carries no entry for it. -/
theorem C9_enchantment_table :
    (∀ name level rest, enchLookup name = none →
        enchEntries ((name, level) :: rest) = enchEntries rest) ∧
    (∀ name level rest code, enchLookup name = some code →
        enchEntries ((name, level) :: rest) =
          NBT.compound [("id", .short code), ("lvl", .short level)]
            :: enchEntries rest) ∧
    compoundGet ((compoundGet (encodeSlot (some sharpnessItem) 0)
        "tag").getD (.compound [])) "ench" =
      some (.list [NBT.compound [("id", .short 9), ("lvl", .short 3)]]) ∧
    compoundGet ((compoundGet (encodeSlot (some unknownEnchItem) 0)
        "tag").getD (.compound [])) "ench" = some (.list []) := by
  refine ⟨?_, ?_, rfl, rfl⟩
  · intro name level rest hname
    rw [enchEntries, hname]
  · intro name level rest code hname
    rw [enchEntries, hname]

/-- C9 witness: the table lemmas applied to the unknown name and to
sharpness level 3. -/
theorem C9_enchantment_table_witness :
    enchLookup "not_in_table" = none ∧
    enchEntries [("not_in_table", 2)] = enchEntries [] ∧
    enchLookup "sharpness" = some 9 ∧
    enchEntries [("sharpness", 3)] =
      NBT.compound [("id", .short 9), ("lvl", .short 3)] :: enchEntries [] :=
  ⟨rfl, C9_enchantment_table.1 "not_in_table" 2 [] rfl, rfl,
   C9_enchantment_table.2.1 "sharpness" 3 [] 9 rfl⟩

/-- C6: the anchor height is the player block y plus 4, except when that
exceeds the build ceiling of the dimension (319 overworld, 127 nether, 255
the end), in which case it is the block y minus 3. -/
theorem C6_anchor_height (form : ChestForm) (player : Player) :
    (sendAnchor form player).y =
      if buildCeiling player.dim < player.block_y + 4 then player.block_y - 3
      else player.block_y + 4 := by
  obtain ⟨uid, bx, by1, bz, dim, wq⟩ := player
  cases dim <;> simp [sendAnchor, ChestForm.send_to, buildCeiling]

/-- C5 counterexample: a slot configured through set_slot with a raw extra
tag payload holding a field named Custom; the encoded slot tag is non-empty
yet contains no Custom field at top level or inside the tag sub-compound,
so the payload was not merged into it. -/
theorem C5_counterexample :
    compoundHasKey (formSlotTag payloadForm 3) "Count" = true ∧
    compoundHasKey (formSlotTag payloadForm 3) "Custom" = false ∧
    compoundHasKey ((compoundGet (formSlotTag payloadForm 3) "tag").getD
        (.compound [])) "Custom" = false :=
  ⟨rfl, rfl, rfl⟩

/-- C5 amended: the raw extra tag payload passed to set_slot is attached to
the constructed item stack but never merged into the encoded slot tag;
every top-level key of the encoded tag is one of the five standard fields
or tag, and every key of the tag sub-compound is display or ench, whatever
the item holds. -/
theorem C5_extra_tag_not_merged (it : ItemStack) (index : Nat) (k : String) :
    (k ∈ compoundKeys (encodeSlot (some it) index) →
      k ∈ ["Count", "Damage", "Name", "WasPickedUp", "Slot", "tag"]) ∧
    (k ∈ compoundKeys ((compoundGet (encodeSlot (some it) index) "tag").getD
        (.compound [])) → k ∈ ["display", "ench"]) := by
  constructor
  · intro hk
    rw [encodeSlot_eq] at hk
    by_cases htag : tagEmpty (metaTag it.meta)
    · rw [if_pos htag] at hk
      simp only [encodeBase, compoundKeys, NBT.fields, List.map_cons,
        List.map_nil, List.mem_cons, List.not_mem_nil, or_false] at hk
      rcases hk with rfl | rfl | rfl | rfl | rfl <;> simp
    · rw [if_neg htag] at hk
      rcases mem_keys_compoundSet _ _ _ _ hk with rfl | h2
      · simp
      · simp only [encodeBase, compoundKeys, NBT.fields, List.map_cons,
          List.map_nil, List.mem_cons, List.not_mem_nil, or_false] at h2
        rcases h2 with rfl | rfl | rfl | rfl | rfl <;> simp
  · intro hk
    rw [encodeSlot_get_tag] at hk
    by_cases htag : tagEmpty (metaTag it.meta)
    · rw [if_pos htag] at hk
      exact absurd hk (keys_empty_compound k)
    · rw [if_neg htag, Option.getD_some] at hk
      rcases metaTag_keys it.meta k hk with rfl | rfl <;> simp

/-- C5 witness: the amended theorem applied to the sample item at index 5
and the key Count. -/
theorem C5_extra_tag_not_merged_witness :
    ("Count" ∈ compoundKeys (encodeSlot (some sampleItem) 5)) ∧
    ("Count" ∈ ["Count", "Damage", "Name", "WasPickedUp", "Slot", "tag"]) :=
  ⟨by decide, (C5_extra_tag_not_merged sampleItem 5 "Count").1 (by decide)⟩

/-- C3 counterexample: set_slot at raw index 54 on a large (54-slot) form
is not rejected; it stores an encoded slot and registers the callback, so
the claim that the maps stay unchanged fails. -/
theorem C3_counterexample :
    dictContains largeForm.ui_items 54 = false ∧
    dictContains outOfRangeForm.ui_items 54 = true ∧
    dictGet outOfRangeForm.call_backs 54 = some 9 :=
  ⟨rfl, rfl, rfl⟩

/-- C3 amended: set_slot with an index at or beyond the layout size is not
rejected; it stores the encoded slot content at that index and registers
the given callback, but such indices are never read by the block metadata
serialization, which stays unchanged. -/
theorem C3_out_of_range_stored_never_serialized (form : ChestForm)
    (index : Nat) (item_type : String) (cb : Nat) (amount dat : Int)
    (dn : Option String) (lr : Option (List String))
    (es : Option (List (String × Int))) (nbt : Option (List (String × NBT)))
    (x y z : Int) (h : layoutSize form ≤ index) :
    (dictGet (form.set_slot index item_type (some cb) amount dat dn lr es
        nbt).ui_items index).isSome = true ∧
    dictGet (form.set_slot index item_type (some cb) amount dat dn lr es
        nbt).call_backs index = some cb ∧
    update_chest_block_actor (form.set_slot index item_type (some cb) amount
        dat dn lr es nbt) x y z = update_chest_block_actor form x y z := by
  rw [set_slot_eq]
  have hsize : 27 ≤ index := by
    unfold layoutSize at h
    by_cases hl : form.large_chest
    · rw [if_pos hl] at h; omega
    · rw [if_neg hl] at h; omega
  refine ⟨?_, ?_, ?_⟩
  · show (dictGet (dictSet form.ui_items index _) index).isSome = true
    rw [dictGet_dictSet_self]
    rfl
  · show dictGet (dictSet form.call_backs index cb) index = some cb
    exact dictGet_dictSet_self _ _ _
  · apply update_chest_block_actor_congr
    · rfl
    · rfl
    · intro i hi
      exact formSlotTag_set_form_slot_ne form index i _ _ (by omega)
    · intro hlg i hi
      have hidx : 54 ≤ index := by
        unfold layoutSize at h
        rw [if_pos hlg] at h
        exact h
      exact formSlotTag_set_form_slot_ne form index (i + 27) _ _ (by omega)

/-- C3 witness: the amended theorem instantiated at the large form and the
out-of-range index 54. -/
theorem C3_out_of_range_witness :
    (layoutSize largeForm ≤ 54) ∧
    ((dictGet (largeForm.set_slot 54 "minecraft:stone" (some 9) 1 0 none none
        none none).ui_items 54).isSome = true ∧
     dictGet (largeForm.set_slot 54 "minecraft:stone" (some 9) 1 0 none none
        none none).call_backs 54 = some 9 ∧
     update_chest_block_actor (largeForm.set_slot 54 "minecraft:stone"
        (some 9) 1 0 none none none none) 0 0 0 =
       update_chest_block_actor largeForm 0 0 0) :=
  ⟨by decide,
   C3_out_of_range_stored_never_serialized largeForm 54 "minecraft:stone" 9
     1 0 none none none none 0 0 0 (by decide)⟩

/-- C1: a take action with source container origin 0 on a slot with a
registered callback makes the handler send exactly one server-initiated
ContainerClose packet with reserved id 114, perform exactly one revert
with the real block restored, delete the player registry entry, and
schedule the callback once with a 2-tick delay, all keyed to the first
matching action of the packet even when several actions match. -/
theorem C1_take_action_teardown (reg : Registry) (player : Player)
    (packet : ItemStackRequest) (data : FormData)
    (hreg : dictGet reg player.unique_id = some data)
    (hmatch : ∃ a ∈ packet.request_data.flatten,
        isMatch data.form.call_backs a = true) :
    ∃ a, packet.request_data.flatten.find? (isMatch data.form.call_backs)
        = some a ∧
      handle_chest_callback reg player packet =
        ([Effect.send (Packet.containerClose 114 0 true),
          Effect.revert data.x data.y data.z true,
          Effect.schedule a.source_slot 2],
         dictDel reg player.unique_id) ∧
      dictGet (handle_chest_callback reg player packet).2 player.unique_id
        = none := by
  have hsome : (packet.request_data.flatten.find?
      (isMatch data.form.call_backs)).isSome = true :=
    List.find?_isSome.mpr hmatch
  obtain ⟨a, ha⟩ := Option.isSome_iff_exists.mp hsome
  have hrun : handle_chest_callback reg player packet =
      ([Effect.send (Packet.containerClose 114 0 true),
        Effect.revert data.x data.y data.z true,
        Effect.schedule a.source_slot 2],
       dictDel reg player.unique_id) := by
    unfold handle_chest_callback
    rw [hreg]
    dsimp only
    rw [findMatchInRequests_eq_find, ha]
    rfl
  refine ⟨a, ha, hrun, ?_⟩
  rw [hrun]
  exact dictGet_dictDel_self reg player.unique_id

/-- C1 witness: the sample registry, player and double-match packet; the
handler fires once on slot 10 and removes the entry. -/
theorem C1_take_action_teardown_witness :
    handle_chest_callback sampleRegistryState samplePlayer samplePacket =
      ([Effect.send (Packet.containerClose 114 0 true),
        Effect.revert 10 68 (-5) true,
        Effect.schedule 10 2],
       dictDel sampleRegistryState 1) := by
  obtain ⟨a, ha, hrun, -⟩ :=
    C1_take_action_teardown sampleRegistryState samplePlayer samplePacket
      sampleData rfl ⟨takeActionSlot10, by simp [samplePacket], rfl⟩
  have hfa : samplePacket.request_data.flatten.find?
      (isMatch sampleData.form.call_backs) = some takeActionSlot10 := by rfl
  rw [hfa] at ha
  obtain rfl : takeActionSlot10 = a := Option.some_inj.mp ha
  exact hrun

/-- C7: when the player has a presented entry but every take action from
origin 0 in the packet targets a slot with no registered callback, the
handler emits no packets, performs no revert, and leaves the registry
unchanged. -/
theorem C7_no_callback_leaves_open (reg : Registry) (player : Player)
    (packet : ItemStackRequest) (data : FormData)
    (hreg : dictGet reg player.unique_id = some data)
    (hnone : ∀ a ∈ packet.request_data.flatten,
        a.action_type = ActionType.Take → a.source_net_id = 0 →
        dictContains data.form.call_backs a.source_slot = false) :
    handle_chest_callback reg player packet = ([], reg) := by
  have hfind : packet.request_data.flatten.find?
      (isMatch data.form.call_backs) = none := by
    rw [List.find?_eq_none]
    intro a ha hcontra
    simp only [isMatch, decide_eq_true_eq] at hcontra
    obtain ⟨h1, h2, h3⟩ := hcontra
    rw [hnone a ha h1 h2] at h3
    exact Bool.false_ne_true h3
  unfold handle_chest_callback
  rw [hreg]
  dsimp only
  rw [findMatchInRequests_eq_find, hfind]
  rfl

/-- C7 witness: the sample presented entry with a packet whose only take
action targets callback-free slot 3; nothing happens. -/
theorem C7_no_callback_leaves_open_witness :
    handle_chest_callback sampleRegistryState samplePlayer noCallbackPacket =
      ([], sampleRegistryState) := by
  apply C7_no_callback_leaves_open sampleRegistryState samplePlayer
    noCallbackPacket sampleData rfl
  intro a ha h1 h2
  have : a = takeActionSlot3 := by
    simpa [noCallbackPacket] using ha
  rw [this]
  rfl

/-- C8: starting from the empty registry, any sequence of presentations
and inbound packets leaves at most one entry per player identity, and
presenting to a player who already has an entry replaces it (lookup finds
the new entry and the count stays one). -/
theorem C8_registry_single_entry (ops : List RegOp) (u : Nat) (d : FormData) :
    countKey (runOps ops) u ≤ 1 ∧
    dictGet (add_runtime_form (runOps ops) u d) u = some d ∧
    countKey (add_runtime_form (runOps ops) u d) u = 1 := by
  have hbase : ∀ w, countKey ([] : Registry) w ≤ 1 := by
    intro w
    simp [countKey]
  have hinv : ∀ v, countKey (runOps ops) v ≤ 1 :=
    fun v => countKey_foldl ops [] hbase v
  exact ⟨hinv u, dictGet_dictSet_self _ _ _,
    countKey_dictSet_self _ _ _ (hinv u)⟩

/-- C10: with large_chest false, presentation sends exactly one block
substitution packet and one block metadata packet, and the single metadata
compound still carries pairx anchor x plus 1, pairz anchor z, and pairlead
true even though no second block is announced. -/
theorem C10_small_chest_pairing (form : ChestForm) (player : Player)
    (h : form.large_chest = false) :
    (form.send_to player).packets =
      [Packet.updateBlock ((sendAnchor form player).x,
          (sendAnchor form player).y, (sendAnchor form player).z)
          chestBlockRuntimeId 3 0,
       Packet.blockActorData ((sendAnchor form player).x,
          (sendAnchor form player).y, (sendAnchor form player).z)
         (chestBlockNbt form (sendAnchor form player).x
            (sendAnchor form player).y (sendAnchor form player).z)] ∧
    compoundGet (chestBlockNbt form (sendAnchor form player).x
        (sendAnchor form player).y (sendAnchor form player).z) "pairx" =
      some (.int ((sendAnchor form player).x + 1)) ∧
    compoundGet (chestBlockNbt form (sendAnchor form player).x
        (sendAnchor form player).y (sendAnchor form player).z) "pairz" =
      some (.int (sendAnchor form player).z) ∧
    compoundGet (chestBlockNbt form (sendAnchor form player).x
        (sendAnchor form player).y (sendAnchor form player).z) "pairlead" =
      some (.bool true) := by
  refine ⟨?_, ?_, ?_, ?_⟩
  · simp [sendAnchor, ChestForm.send_to, update_chest_block,
      update_chest_block_actor, h]
  · simp [chestBlockNbt, compoundGet, NBT.fields, sdictGet]
  · simp [chestBlockNbt, compoundGet, NBT.fields, sdictGet]
  · simp [chestBlockNbt, compoundGet, NBT.fields, sdictGet]

/-- C10 witness: the small sample form presented to the sample player. -/
theorem C10_small_chest_pairing_witness :
    smallForm.large_chest = false ∧
    (smallForm.send_to samplePlayer).packets =
      [Packet.updateBlock ((sendAnchor smallForm samplePlayer).x,
          (sendAnchor smallForm samplePlayer).y,
          (sendAnchor smallForm samplePlayer).z) chestBlockRuntimeId 3 0,
       Packet.blockActorData ((sendAnchor smallForm samplePlayer).x,
          (sendAnchor smallForm samplePlayer).y,
          (sendAnchor smallForm samplePlayer).z)
         (chestBlockNbt smallForm (sendAnchor smallForm samplePlayer).x
            (sendAnchor smallForm samplePlayer).y
            (sendAnchor smallForm samplePlayer).z)] ∧
    compoundGet (chestBlockNbt smallForm
        (sendAnchor smallForm samplePlayer).x
        (sendAnchor smallForm samplePlayer).y
        (sendAnchor smallForm samplePlayer).z) "pairlead" =
      some (.bool true) :=
  ⟨rfl, (C10_small_chest_pairing smallForm samplePlayer rfl).1,
   (C10_small_chest_pairing smallForm samplePlayer rfl).2.2.2⟩

end ChestFormAPI
